import Mathlib

/-!
Verification of the ctrlSPEAK audio capture / segmentation / streaming /
transcription-worker core, shallowly embedded from the repository sources.

The embedding mirrors:
* `src/utils/audio.py` — `AudioManager` (queue-mode RMS segmentation,
  streaming fixed-interval chunking, start/stop lifecycle);
* `src/transcription.py` — `transcription_worker`;
* `src/ui/app.py` `hot_swap_model` together with `src/model_loader.py`
  `get_model` and the module-level globals of `src/state.py`.

Audio samples are modelled as extended rationals (`EV`): a finite rational
value, or the IEEE special values NaN / +inf / -inf, which the spec's
failure-semantics clauses are about.  Durations are exact rationals
(`length / 16000`), matching the float arithmetic of the source on the
inputs considered here (small integer sample counts over the fixed
16 kHz rate).
-/

/-- One audio sample: a finite value or an IEEE special value.  `numpy`
propagates NaN/Inf through `chunk**2`, `np.mean` and `np.sqrt` without
raising, which is what this type lets us track. -/
inductive EV where
  | fin (q : ℚ)
  | nan
  | posInf
  | negInf
deriving DecidableEq, Repr

def EV.isNan : EV → Bool
  | .nan => true
  | _ => false

def EV.isInfinite : EV → Bool
  | .posInf => true
  | .negInf => true
  | _ => false

/-- The square of a sample's finite value (only consulted when the chunk has
no NaN/Inf samples). -/
def EV.sq : EV → ℚ
  | .fin q => q * q
  | _ => 0

def hasNan (c : List EV) : Bool := c.any EV.isNan

def hasInf (c : List EV) : Bool := c.any EV.isInfinite

/-- Sum of squares of the finite samples of a chunk. -/
def sumSq (c : List EV) : ℚ := (c.map EV.sq).sum

/-- From `src/utils/audio.py` line 26: `SAMPLE_RATE = 16000`. -/
def SAMPLE_RATE : ℚ := 16000

/-- Source `AudioManager.__init__`: `self.RMS_THRESHOLD = 0.01`. -/
def RMS_THRESHOLD : ℚ := 1 / 100

/-- Source `AudioManager.__init__`: `self.SILENCE_DURATION_S = 1.0`. -/
def SILENCE_DURATION_S : ℚ := 1

/-- Source `AudioManager.__init__`: `self.MIN_CHUNK_DURATION_S = 0.5`. -/
def MIN_CHUNK_DURATION_S : ℚ := 1 / 2

/-- The source's speech test `np.sqrt(np.mean(chunk**2)) >= self.RMS_THRESHOLD`
under IEEE semantics:
* any NaN sample makes the mean (hence the rms) NaN, and `NaN >= t` is false;
* otherwise any infinite sample squares to `+inf`, the sum and mean of the
  (nonnegative) squares is `+inf`, `sqrt(+inf) = +inf`, and `+inf >= t` is true;
* an empty chunk gives `np.mean([]) = NaN`, hence false;
* otherwise everything is finite and nonnegative, and since `sqrt` is
  monotone and the threshold is positive,
  `sqrt(m) >= t` iff `m >= t^2`. -/
def chunkIsSpeech (c : List EV) : Bool :=
  if hasNan c then false
  else if hasInf c then true
  else if c.length = 0 then false
  else decide (RMS_THRESHOLD * RMS_THRESHOLD ≤ sumSq c / (c.length : ℚ))

/-- The fields of `AudioManager` (`src/utils/audio.py`) that the segmentation
and streaming logic reads or writes.  UI-only fields (`console`,
`live_display`, `last_rms`, `app_state`, device fields) are omitted: they do
not feed back into segmentation.  `streaming_callback` records whether an
`on_chunk_callback` was registered (the code only tests it for truthiness;
the invocations themselves are returned as outputs). -/
structure AudioManager where
  is_collecting : Bool
  audio_buffer : List (List EV)
  current_silence_s : ℚ
  is_potentially_speaking : Bool
  streaming_mode : Bool
  streaming_callback : Bool
  streaming_chunk_size_samples : ℕ
  streaming_buffer : List (List EV)
deriving DecidableEq, Repr

/-- The observable effects of one `AudioManager` operation: items `put` on
`self.transcription_queue`, and invocations of `self._streaming_callback`
as `(samples, is_final)` pairs, in order. -/
structure CallOut where
  queued : List (List EV)
  chunks : List (List EV × Bool)
deriving DecidableEq, Repr

def CallOut.empty : CallOut := ⟨[], []⟩

def CallOut.append (a b : CallOut) : CallOut :=
  ⟨a.queued ++ b.queued, a.chunks ++ b.chunks⟩

instance : Append CallOut := ⟨CallOut.append⟩

/-- Source `AudioManager.__init__`: initial values of the modelled fields. -/
def initManager : AudioManager :=
  { is_collecting := false
    audio_buffer := []
    current_silence_s := 0
    is_potentially_speaking := false
    streaming_mode := false
    streaming_callback := false
    streaming_chunk_size_samples := 0
    streaming_buffer := [] }

/-- Source `AudioManager.reset_collected_audio`. -/
def reset_collected_audio (s : AudioManager) : AudioManager :=
  { s with audio_buffer := [], current_silence_s := 0, is_potentially_speaking := false }

/-- Source `AudioManager._streaming_audio_callback` (lines 381-435).  The incoming
chunk is already one-dimensional in this model (the `flatten` is a no-op).
The RMS computation in this branch only feeds the UI (`last_rms` /
`app_state`), so it is not modelled. -/
def streaming_audio_callback (s : AudioManager) (chunk : List EV) :
    AudioManager × CallOut :=
  let buf := s.streaming_buffer ++ [chunk]
  let total_samples := (buf.map List.length).sum
  if s.streaming_chunk_size_samples ≤ total_samples then
    let audio_data := buf.flatten
    let chunk_samples := audio_data.take s.streaming_chunk_size_samples
    let remainder := audio_data.drop s.streaming_chunk_size_samples
    let buf' := if remainder.length ≠ 0 then [remainder] else []
    let outs := if s.streaming_callback then [(chunk_samples, false)] else []
    ({ s with streaming_buffer := buf' }, ⟨[], outs⟩)
  else
    ({ s with streaming_buffer := buf }, CallOut.empty)

/-- The segment put on the queue by a flush, if any: `src/utils/audio.py`
lines 207-222 (silence flush) and 271-283 (final flush), which both
concatenate `audio_buffer` and enqueue iff the duration is at least
`MIN_CHUNK_DURATION_S`. -/
def flushQueued (buffer : List (List EV)) : List (List EV) :=
  if buffer = [] then []
  else
    let segment_data := buffer.flatten
    if MIN_CHUNK_DURATION_S ≤ (segment_data.length : ℚ) / SAMPLE_RATE then
      [segment_data]
    else []

/-- Source `AudioManager.audio_callback` (lines 141-245).  The `frames` argument
always equals the number of rows of `indata`, so the chunk duration is
`chunk.length / SAMPLE_RATE`. -/
def audio_callback (s : AudioManager) (chunk : List EV) : AudioManager × CallOut :=
  if s.is_collecting = false then (s, CallOut.empty)
  else if s.streaming_mode then streaming_audio_callback s chunk
  else
    let is_speech_chunk := chunkIsSpeech chunk
    if is_speech_chunk then
      ({ s with audio_buffer := s.audio_buffer ++ [chunk]
                current_silence_s := 0
                is_potentially_speaking := true }, CallOut.empty)
    else if s.is_potentially_speaking then
      let silence' := s.current_silence_s + (chunk.length : ℚ) / SAMPLE_RATE
      if SILENCE_DURATION_S ≤ silence' then
        ({ s with audio_buffer := []
                  current_silence_s := 0
                  is_potentially_speaking := false },
         ⟨flushQueued s.audio_buffer, []⟩)
      else
        ({ s with audio_buffer := s.audio_buffer ++ [chunk]
                  current_silence_s := silence' }, CallOut.empty)
    else (s, CallOut.empty)

/-- Source `AudioManager.start_recording` (lines 247-258): resets buffer and
silence state and sets `is_collecting`. -/
def start_recording (s : AudioManager) : AudioManager :=
  { reset_collected_audio s with is_collecting := true }

/-- Source `AudioManager.stop_recording` (lines 260-291). -/
def stop_recording (s : AudioManager) : AudioManager × CallOut :=
  if s.is_collecting = false then (s, CallOut.empty)
  else
    ({ reset_collected_audio s with is_collecting := false },
     ⟨flushQueued s.audio_buffer, []⟩)

/-- Source `AudioManager.start_streaming` (lines 297-333).  The chunk size in
samples is `int(SAMPLE_RATE * chunk_size_ms / 1000)`. -/
def start_streaming (s : AudioManager) (chunk_size_ms : ℕ) (has_callback : Bool) :
    AudioManager :=
  if s.is_collecting then s
  else
    { s with streaming_mode := true
             streaming_callback := has_callback
             streaming_chunk_size_samples := 16000 * chunk_size_ms / 1000
             streaming_buffer := []
             audio_buffer := []
             current_silence_s := 0
             is_potentially_speaking := false
             is_collecting := true }

/-- Source `AudioManager.stop_streaming` (lines 335-379).  When not in streaming
mode it delegates to `stop_recording`; otherwise it emits the residual
buffer once with `is_final=True` (only when nonempty with a positive sample
count and a callback is registered) and resets all streaming and
segmentation state. -/
def stop_streaming (s : AudioManager) : AudioManager × CallOut :=
  if s.is_collecting = false then (s, CallOut.empty)
  else if s.streaming_mode = false then stop_recording s
  else
    let finals :=
      if s.streaming_buffer ≠ [] ∧ s.streaming_callback = true then
        if 0 < (s.streaming_buffer.map List.length).sum then
          [(s.streaming_buffer.flatten, true)]
        else []
      else []
    ({ s with is_collecting := false
              streaming_mode := false
              streaming_callback := false
              streaming_buffer := []
              streaming_chunk_size_samples := 0
              audio_buffer := []
              current_silence_s := 0
              is_potentially_speaking := false },
     ⟨[], finals⟩)

/-- Feed a list of device buffers through `audio_callback`, threading the
state and concatenating the observable outputs. -/
def runCallbacks (s : AudioManager) : List (List EV) → AudioManager × CallOut
  | [] => (s, CallOut.empty)
  | c :: cs =>
    let r1 := audio_callback s c
    let r2 := runCallbacks r1.1 cs
    (r2.1, r1.2 ++ r2.2)

/-- Successive full `cs`-sample blocks of a sample list (`n` of them). -/
def sliceFulls (cs : ℕ) : ℕ → List EV → List (List EV)
  | 0, _ => []
  | n + 1, A => A.take cs :: sliceFulls cs n (A.drop cs)

/-- A 0.5 s speech buffer: 8000 samples of constant amplitude 1. -/
def speechChunk : List EV := List.replicate 8000 (EV.fin 1)

/-- A 0.5 s silent buffer: 8000 zero samples. -/
def silenceChunk : List EV := List.replicate 8000 (EV.fin 0)

/-! ### The transcription worker (`src/transcription.py`) -/

/-- Behaviour of the environment for one dequeued audio item: the temp-file
write can raise, `model.transcribe_batch` can raise, or transcription
returns (`none` models a falsy / non-list result, `some t` a list whose
first element is `t`). -/
inductive TOutcome where
  | writeFails
  | transcribeRaises
  | ok (text : Option String)
deriving DecidableEq, Repr

/-- One item dequeued from the work queue: the `None` sentinel, or audio
data of a given sample count bundled with the environment's behaviour for
it. -/
inductive WItem where
  | sentinel
  | audio (samples : ℕ) (outcome : TOutcome)
deriving DecidableEq, Repr

/-- Worker-visible state: the shared `results_list` and the number of
`work_queue.task_done()` acknowledgements issued. -/
structure WorkerState where
  results : List String
  taskDone : ℕ
deriving DecidableEq, Repr

/-- One iteration of the `while True` loop of `transcription_worker`
(`src/transcription.py` lines 20-93) on a dequeued item.  Returns the new
state and whether the loop continues:
* the `None` sentinel is acknowledged and breaks the loop;
* empty audio is acknowledged and skipped;
* a failed temp-file write is acknowledged and skipped;
* an exception from `model.transcribe_batch` is caught and sets
  `text = None`, so nothing is appended, the item is acknowledged, and the
  loop continues;
* otherwise non-`None`, non-empty text is appended and the item is
  acknowledged. -/
def worker_step (st : WorkerState) : WItem → WorkerState × Bool
  | .sentinel => ({ st with taskDone := st.taskDone + 1 }, false)
  | .audio n outcome =>
    if n = 0 then ({ st with taskDone := st.taskDone + 1 }, true)
    else
      match outcome with
      | .writeFails => ({ st with taskDone := st.taskDone + 1 }, true)
      | .transcribeRaises => ({ st with taskDone := st.taskDone + 1 }, true)
      | .ok none => ({ st with taskDone := st.taskDone + 1 }, true)
      | .ok (some t) =>
        if t = "" then ({ st with taskDone := st.taskDone + 1 }, true)
        else ({ st with results := st.results ++ [t], taskDone := st.taskDone + 1 }, true)

/-- The worker loop over a (finite) queue history: process items in order
until an item breaks the loop (the sentinel) or the history ends. -/
def transcription_worker (st : WorkerState) : List WItem → WorkerState
  | [] => st
  | i :: is =>
    let r := worker_step st i
    if r.2 then transcription_worker r.1 is else r.1

/-! ### Model loading and hot swap (`src/model_loader.py`, `src/ui/app.py`) -/

/-- Behaviour of the backend for a given `state.model_type`:
`ModelFactory.get_model` can raise while creating the instance,
`load_model()` can raise while loading weights, or both succeed. -/
inductive LoadOutcome where
  | createRaises
  | loadRaises
  | ok
deriving DecidableEq, Repr

/-- The module-level globals of `src/state.py` that `get_model` and
`hot_swap_model` read and write.  A model instance is represented by the
model-type string it was created from. -/
structure AppGlobalState where
  model_type : String
  stt_model : Option String
  model_loaded : Bool
deriving DecidableEq, Repr

/-- Source `get_model` (`src/model_loader.py` lines 15-74), with the backend's
behaviour supplied as `env`.  Returns the updated globals and `some model`
on success, `none` when a `ModelLoadError` is raised.  Note that when
instance creation succeeds but weight loading raises, `state.stt_model`
keeps the (unloaded) instance assigned at line 35. -/
def get_model (env : String → LoadOutcome) (s : AppGlobalState) :
    AppGlobalState × Option String :=
  match s.stt_model with
  | some m => (s, some m)
  | none =>
    match env s.model_type with
    | .createRaises => (s, none)
    | .loadRaises => ({ s with stt_model := some s.model_type }, none)
    | .ok =>
      ({ s with stt_model := some s.model_type, model_loaded := true },
       some s.model_type)

/-- Source `CtrlSpeakApp.hot_swap_model` (`src/ui/app.py` lines 205-328), reduced
to its effect on `state`: resolve the alias (failure returns `false` with no
state change), save `old_model_type`, set `state.model_type` to the resolved
name, unload the old model (`state.stt_model = None`,
`state.model_loaded = False`), call `get_model` in the loader thread; on
failure restore only `state.model_type` and return `false`; on success
install the new model and return `true`. -/
def hot_swap_model (resolve : String → Option String)
    (env : String → LoadOutcome) (s : AppGlobalState) (aliasName : String) :
    AppGlobalState × Bool :=
  match resolve aliasName with
  | none => (s, false)
  | some full_model_name =>
    let old_model_type := s.model_type
    let s1 : AppGlobalState :=
      { s with model_type := full_model_name, stt_model := none, model_loaded := false }
    let r := get_model env s1
    match r.2 with
    | none => ({ r.1 with model_type := old_model_type }, false)
    | some new_model =>
      ({ r.1 with stt_model := some new_model, model_loaded := true }, true)

/-! ### Basic lemmas about the embedding -/

theorem CallOut.append_def (a b : CallOut) :
    a ++ b = ⟨a.queued ++ b.queued, a.chunks ++ b.chunks⟩ := rfl

theorem CallOut.empty_append (a : CallOut) : CallOut.empty ++ a = a := rfl

theorem CallOut.append_empty (a : CallOut) : a ++ CallOut.empty = a := by
  cases a
  simp [CallOut.append_def, CallOut.empty]

theorem CallOut.append_assoc (a b c : CallOut) : a ++ b ++ c = a ++ (b ++ c) := by
  simp [CallOut.append_def]

theorem runCallbacks_nil (s : AudioManager) : runCallbacks s [] = (s, CallOut.empty) := rfl

theorem runCallbacks_cons (s : AudioManager) (c : List EV) (cs : List (List EV)) :
    runCallbacks s (c :: cs) =
      ((runCallbacks (audio_callback s c).1 cs).1,
       (audio_callback s c).2 ++ (runCallbacks (audio_callback s c).1 cs).2) := rfl

theorem runCallbacks_append (s : AudioManager) (l1 l2 : List (List EV)) :
    runCallbacks s (l1 ++ l2) =
      ((runCallbacks (runCallbacks s l1).1 l2).1,
       (runCallbacks s l1).2 ++ (runCallbacks (runCallbacks s l1).1 l2).2) := by
  induction l1 generalizing s with
  | nil => simp [runCallbacks_nil, CallOut.empty_append]
  | cons c cs ih =>
      simp only [List.cons_append, runCallbacks_cons, ih, CallOut.append_assoc]

/-- Unfolding of `audio_callback` for a speech-classified chunk in queue mode. -/
theorem audio_callback_speech (s : AudioManager) (c : List EV)
    (hcol : s.is_collecting = true) (hstr : s.streaming_mode = false)
    (hsp : chunkIsSpeech c = true) :
    audio_callback s c =
      ({ s with audio_buffer := s.audio_buffer ++ [c]
                current_silence_s := 0
                is_potentially_speaking := true }, CallOut.empty) := by
  simp [audio_callback, hcol, hstr, hsp]

/-- Unfolding of `audio_callback` for a below-threshold chunk while idle:
the chunk is discarded and the state is untouched. -/
theorem audio_callback_idle (s : AudioManager) (c : List EV)
    (hstr : s.streaming_mode = false)
    (hsp : chunkIsSpeech c = false) (hspk : s.is_potentially_speaking = false) :
    audio_callback s c = (s, CallOut.empty) := by
  cases hcol : s.is_collecting <;> simp [audio_callback, hcol, hstr, hsp, hspk]

/-- Unfolding of `audio_callback` for a below-threshold chunk while
potentially speaking, when the accumulated silence stays under the
threshold: the chunk is appended and the silence grows. -/
theorem audio_callback_silence_acc (s : AudioManager) (c : List EV)
    (hcol : s.is_collecting = true) (hstr : s.streaming_mode = false)
    (hsp : chunkIsSpeech c = false) (hspk : s.is_potentially_speaking = true)
    (hlt : s.current_silence_s + (c.length : ℚ) / SAMPLE_RATE < SILENCE_DURATION_S) :
    audio_callback s c =
      ({ s with audio_buffer := s.audio_buffer ++ [c]
                current_silence_s := s.current_silence_s + (c.length : ℚ) / SAMPLE_RATE },
       CallOut.empty) := by
  simp [audio_callback, hcol, hstr, hsp, hspk, not_le.mpr hlt]

/-- Unfolding of `audio_callback` for a below-threshold chunk that pushes the
accumulated silence to the threshold: the buffered segment is flushed
(enqueued iff long enough) and the segmentation state resets to idle. -/
theorem audio_callback_flush (s : AudioManager) (c : List EV)
    (hcol : s.is_collecting = true) (hstr : s.streaming_mode = false)
    (hsp : chunkIsSpeech c = false) (hspk : s.is_potentially_speaking = true)
    (hge : SILENCE_DURATION_S ≤ s.current_silence_s + (c.length : ℚ) / SAMPLE_RATE) :
    audio_callback s c =
      ({ s with audio_buffer := []
                current_silence_s := 0
                is_potentially_speaking := false },
       ⟨flushQueued s.audio_buffer, []⟩) := by
  simp [audio_callback, hcol, hstr, hsp, hspk, hge]

/-- Unfolding of `runCallbacks` one step with the first callback's result given explicitly. -/
theorem runCallbacks_cons_eq {s s' : AudioManager} {c : List EV} {o : CallOut}
    (cs : List (List EV)) (h : audio_callback s c = (s', o)) :
    runCallbacks s (c :: cs) =
      ((runCallbacks s' cs).1, o ++ (runCallbacks s' cs).2) := by
  rw [runCallbacks_cons, h]

/-- Feeding `n` speech-classified chunks in queue mode appends them all to
`audio_buffer`, resets the silence clock and marks speaking; nothing is
emitted. -/
theorem run_speech_phase (c : List EV) (hsp : chunkIsSpeech c = true) :
    ∀ (n : ℕ) (s : AudioManager), s.is_collecting = true → s.streaming_mode = false →
      0 < n →
      runCallbacks s (List.replicate n c) =
        ({ s with audio_buffer := s.audio_buffer ++ List.replicate n c
                  current_silence_s := 0
                  is_potentially_speaking := true }, CallOut.empty) := by
  intro n
  induction n with
  | zero => intro s _ _ h; exact absurd h (by simp)
  | succ n ih =>
      intro s hcol hstr _
      rw [List.replicate_succ,
          runCallbacks_cons_eq _ (audio_callback_speech s c hcol hstr hsp)]
      rcases Nat.eq_zero_or_pos n with hn | hn
      · subst hn
        simp [runCallbacks_nil, CallOut.append_empty]
      · have h := ih { s with audio_buffer := s.audio_buffer ++ [c]
                              current_silence_s := 0
                              is_potentially_speaking := true } hcol hstr hn
        rw [h]
        simp only [CallOut.append_empty]
        congr 1
        simp [List.replicate_succ]

/-- Feeding `j` below-threshold chunks while speaking, with the silence clock
staying strictly under the threshold throughout, appends them all and adds
`j` chunk-durations of silence; nothing is emitted. -/
theorem run_silence_acc_phase (c : List EV) (hsp : chunkIsSpeech c = false) :
    ∀ (j : ℕ) (s : AudioManager), s.is_collecting = true → s.streaming_mode = false →
      s.is_potentially_speaking = true →
      s.current_silence_s + (j : ℚ) * ((c.length : ℚ) / SAMPLE_RATE) < SILENCE_DURATION_S →
      runCallbacks s (List.replicate j c) =
        ({ s with audio_buffer := s.audio_buffer ++ List.replicate j c
                  current_silence_s :=
                    s.current_silence_s + (j : ℚ) * ((c.length : ℚ) / SAMPLE_RATE) },
         CallOut.empty) := by
  intro j
  induction j with
  | zero =>
      intro s hcol hstr hspk _
      rw [List.replicate_zero, runCallbacks_nil]
      simp
  | succ j ih =>
      intro s hcol hstr hspk hlt
      have hdurnn : (0 : ℚ) ≤ (c.length : ℚ) / SAMPLE_RATE := by
        apply div_nonneg (by positivity)
        simp [SAMPLE_RATE]
      have hjnn : (0 : ℚ) ≤ (j : ℚ) * ((c.length : ℚ) / SAMPLE_RATE) := by positivity
      have hcast : ((j + 1 : ℕ) : ℚ) = (j : ℚ) + 1 := by push_cast; ring
      have hone : s.current_silence_s + (c.length : ℚ) / SAMPLE_RATE < SILENCE_DURATION_S := by
        rw [hcast] at hlt
        nlinarith
      rw [List.replicate_succ,
          runCallbacks_cons_eq _ (audio_callback_silence_acc s c hcol hstr hsp hspk hone)]
      have h := ih { s with audio_buffer := s.audio_buffer ++ [c]
                            current_silence_s :=
                              s.current_silence_s + (c.length : ℚ) / SAMPLE_RATE }
        hcol hstr hspk
        (by
          rw [hcast] at hlt
          show s.current_silence_s + (c.length : ℚ) / SAMPLE_RATE +
              (j : ℚ) * ((c.length : ℚ) / SAMPLE_RATE) < SILENCE_DURATION_S
          linarith)
      rw [h]
      simp only [CallOut.append_empty]
      congr 1
      congr 1
      · simp [List.replicate_succ]
      · show s.current_silence_s + (c.length : ℚ) / SAMPLE_RATE +
            (j : ℚ) * ((c.length : ℚ) / SAMPLE_RATE) =
          s.current_silence_s + ((j + 1 : ℕ) : ℚ) * ((c.length : ℚ) / SAMPLE_RATE)
        rw [hcast]; ring

/-- Below-threshold chunks arriving while not potentially speaking (idle, or
after a segment was already cut) are discarded without any state change. -/
theorem run_idle_phase (c : List EV) (hsp : chunkIsSpeech c = false) :
    ∀ (k : ℕ) (s : AudioManager), s.streaming_mode = false →
      s.is_potentially_speaking = false →
      runCallbacks s (List.replicate k c) = (s, CallOut.empty) := by
  intro k
  induction k with
  | zero => intro s _ _; rw [List.replicate_zero, runCallbacks_nil]
  | succ k ih =>
      intro s hstr hspk
      rw [List.replicate_succ,
          runCallbacks_cons_eq _ (audio_callback_idle s c hstr hsp hspk),
          ih s hstr hspk]
      rfl

/-- Composition of two run equations over an append of chunk lists. -/
theorem runCallbacks_append_eq {s s1 s2 : AudioManager} {o1 o2 : CallOut}
    {l1 l2 : List (List EV)}
    (h1 : runCallbacks s l1 = (s1, o1)) (h2 : runCallbacks s1 l2 = (s2, o2)) :
    runCallbacks s (l1 ++ l2) = (s2, o1 ++ o2) := by
  rw [runCallbacks_append, h1, h2]

/-- Composition of a single callback step with a run over the tail. -/
theorem runCallbacks_cons_of_step {s s1 s2 : AudioManager} {o1 o2 : CallOut}
    {c : List EV} {cs : List (List EV)}
    (h1 : audio_callback s c = (s1, o1)) (h2 : runCallbacks s1 cs = (s2, o2)) :
    runCallbacks s (c :: cs) = (s2, o1 ++ o2) := by
  rw [runCallbacks_cons, h1, h2]

/-- Length of the flattened replicated buffer. -/
theorem flatten_length_replicate (n : ℕ) (c : List EV) :
    (List.replicate n c).flatten.length = n * c.length := by
  induction n with
  | zero => simp
  | succ n ih => simp [List.replicate_succ, ih]; ring

/-- The full queue-mode scenario run: from a freshly started recording,
`ns` copies of a speech chunk followed by `nq` copies of a silence chunk,
all of `m` samples.  `k` is the first silence-chunk index at which the
accumulated silence reaches `SILENCE_DURATION_S = 1`, i.e. the least `k`
with `16000 ≤ k * m`; the flush happens on that chunk, the segment carries
the speech plus the `k - 1` buffered silence chunks, and the remaining
silence chunks are discarded in the idle state.  The hypothesis
`8000 ≤ ns * m` makes the segment pass the `MIN_CHUNK_DURATION_S` check. -/
theorem seg_run_spec (s : AudioManager) (m ns nq k : ℕ) (spc sil : List EV)
    (hstr : s.streaming_mode = false)
    (hspc : chunkIsSpeech spc = true) (hsil : chunkIsSpeech sil = false)
    (hlspc : spc.length = m) (hlsil : sil.length = m)
    (hns : 0 < ns) (hsegmin : 8000 ≤ ns * m)
    (hk1 : 16000 ≤ k * m) (hk2 : (k - 1) * m < 16000) (hknq : k ≤ nq) :
    runCallbacks (start_recording s) (List.replicate ns spc ++ List.replicate nq sil) =
      (start_recording s,
       ⟨[(List.replicate ns spc ++ List.replicate (k - 1) sil).flatten], []⟩) := by
  have hm : 0 < m := Nat.pos_of_ne_zero (by rintro rfl; simp at hk1)
  have hkpos : 0 < k := Nat.pos_of_ne_zero (by rintro rfl; simp at hk1)
  have hSR : (SAMPLE_RATE : ℚ) = 16000 := rfl
  have hkc : ((k : ℕ) : ℚ) = ((k - 1 : ℕ) : ℚ) + 1 := by
    calc ((k : ℕ) : ℚ) = (((k - 1) + 1 : ℕ) : ℚ) := by rw [Nat.sub_add_cancel hkpos]
      _ = ((k - 1 : ℕ) : ℚ) + 1 := by push_cast; ring
  -- phase 1: speech
  have h1 := run_speech_phase spc hspc ns (start_recording s) rfl hstr hns
  -- phase 2a: accumulating silence below the threshold
  have h2a := run_silence_acc_phase sil hsil (k - 1)
    { start_recording s with
        audio_buffer := (start_recording s).audio_buffer ++ List.replicate ns spc
        current_silence_s := 0
        is_potentially_speaking := true }
    rfl hstr rfl
    (by
      show (0 : ℚ) + ((k - 1 : ℕ) : ℚ) * ((sil.length : ℚ) / SAMPLE_RATE) < SILENCE_DURATION_S
      rw [hlsil, hSR, SILENCE_DURATION_S, zero_add, mul_div_assoc', div_lt_one (by norm_num)]
      calc ((k - 1 : ℕ) : ℚ) * (m : ℚ) = (((k - 1) * m : ℕ) : ℚ) := by push_cast; ring
        _ < 16000 := by exact_mod_cast hk2)
  -- phase 2b: the flushing chunk
  have h2b := audio_callback_flush
    { start_recording s with
        audio_buffer :=
          ((start_recording s).audio_buffer ++ List.replicate ns spc) ++
            List.replicate (k - 1) sil
        current_silence_s := 0 + ((k - 1 : ℕ) : ℚ) * ((sil.length : ℚ) / SAMPLE_RATE)
        is_potentially_speaking := true }
    sil rfl hstr hsil rfl
    (by
      show SILENCE_DURATION_S ≤
        0 + ((k - 1 : ℕ) : ℚ) * ((sil.length : ℚ) / SAMPLE_RATE) +
          (sil.length : ℚ) / SAMPLE_RATE
      rw [hlsil, hSR, SILENCE_DURATION_S, zero_add, ← add_one_mul, mul_div_assoc',
          le_div_iff₀ (by norm_num)]
      calc (1 : ℚ) * 16000 = 16000 := by ring
        _ ≤ ((k * m : ℕ) : ℚ) := by exact_mod_cast hk1
        _ = (((k - 1 : ℕ) : ℚ) + 1) * (m : ℚ) := by rw [← hkc]; push_cast; ring)
  -- phase 2c: trailing idle silence
  have h2c := run_idle_phase sil hsil (nq - k)
    { start_recording s with
        audio_buffer := []
        current_silence_s := 0
        is_potentially_speaking := false }
    hstr rfl
  -- the flushed segment passes the minimum-duration check
  have hflush : flushQueued
      (((start_recording s).audio_buffer ++ List.replicate ns spc) ++
        List.replicate (k - 1) sil) =
      [(List.replicate ns spc ++ List.replicate (k - 1) sil).flatten] := by
    have hbuf : ((start_recording s).audio_buffer ++ List.replicate ns spc) ++
        List.replicate (k - 1) sil =
        List.replicate ns spc ++ List.replicate (k - 1) sil := by
      show (([] : List (List EV)) ++ List.replicate ns spc) ++ List.replicate (k - 1) sil = _
      rw [List.nil_append]
    rw [hbuf, flushQueued]
    have hne : List.replicate ns spc ++ List.replicate (k - 1) sil ≠ [] := by
      simp [List.append_eq_nil]
      omega
    rw [if_neg hne]
    simp only
    rw [if_pos]
    rw [MIN_CHUNK_DURATION_S, hSR, le_div_iff₀ (by norm_num)]
    have hlen : (List.replicate ns spc ++ List.replicate (k - 1) sil).flatten.length =
        ns * m + (k - 1) * m := by
      rw [List.flatten_append, List.length_append,
          flatten_length_replicate, flatten_length_replicate, hlspc, hlsil]
    rw [hlen]
    calc (1 : ℚ) / 2 * 16000 = ((8000 : ℕ) : ℚ) := by norm_num
      _ ≤ ((ns * m + (k - 1) * m : ℕ) : ℚ) := by
          exact_mod_cast Nat.le_add_right_of_le hsegmin
  -- assemble
  have hsplit : List.replicate nq sil =
      List.replicate (k - 1) sil ++ sil :: List.replicate (nq - k) sil := by
    rw [← List.replicate_succ, ← List.replicate_add]
    congr 1
    omega
  have h2 := runCallbacks_append_eq h2a (runCallbacks_cons_of_step h2b h2c)
  have hall := runCallbacks_append_eq h1 h2
  rw [hsplit]
  rw [hall]
  rw [hflush]
  rfl

/-! ### Concrete chunk classification -/

theorem hasNan_replicate_fin (n : ℕ) (q : ℚ) :
    hasNan (List.replicate n (EV.fin q)) = false := by
  induction n with
  | zero => rfl
  | succ n ih =>
      simp only [hasNan, List.replicate_succ, List.any_cons] at ih ⊢
      simp [EV.isNan, ih]

theorem hasInf_replicate_fin (n : ℕ) (q : ℚ) :
    hasInf (List.replicate n (EV.fin q)) = false := by
  induction n with
  | zero => rfl
  | succ n ih =>
      simp only [hasInf, List.replicate_succ, List.any_cons] at ih ⊢
      simp [EV.isInfinite, ih]

theorem sumSq_replicate_fin (n : ℕ) (q : ℚ) :
    sumSq (List.replicate n (EV.fin q)) = (n : ℚ) * (q * q) := by
  induction n with
  | zero => simp [sumSq]
  | succ n ih =>
      rw [List.replicate_succ]
      show EV.sq (EV.fin q) + sumSq (List.replicate n (EV.fin q)) = _
      rw [ih]
      show q * q + (n : ℚ) * (q * q) = ((n + 1 : ℕ) : ℚ) * (q * q)
      push_cast
      ring

/-- Speech classification of a constant chunk of positive samples at or
above the threshold. -/
theorem chunkIsSpeech_replicate (n : ℕ) (q : ℚ) (hn : 0 < n)
    (hq : RMS_THRESHOLD * RMS_THRESHOLD ≤ q * q) :
    chunkIsSpeech (List.replicate n (EV.fin q)) = true := by
  rw [chunkIsSpeech, hasNan_replicate_fin, hasInf_replicate_fin]
  simp only [if_false, Bool.false_eq_true]
  rw [sumSq_replicate_fin, List.length_replicate]
  rw [if_neg (by omega)]
  simp only [decide_eq_true_eq]
  have hnq : (0 : ℚ) < (n : ℚ) := by exact_mod_cast hn
  rw [mul_div_cancel_left₀ _ (ne_of_gt hnq)]
  exact hq

/-- Silence classification of a constant chunk of samples strictly below
the threshold. -/
theorem chunkIsSpeech_replicate_low (n : ℕ) (q : ℚ)
    (hq : q * q < RMS_THRESHOLD * RMS_THRESHOLD) :
    chunkIsSpeech (List.replicate n (EV.fin q)) = false := by
  rw [chunkIsSpeech, hasNan_replicate_fin, hasInf_replicate_fin]
  simp only [if_false, Bool.false_eq_true]
  rcases Nat.eq_zero_or_pos n with hn | hn
  · subst hn; simp
  · rw [sumSq_replicate_fin, List.length_replicate]
    rw [if_neg (by omega)]
    simp only [decide_eq_false_iff_not, not_le]
    have hnq : (0 : ℚ) < (n : ℚ) := by exact_mod_cast hn
    rw [mul_div_cancel_left₀ _ (ne_of_gt hnq)]
    exact hq

theorem chunkIsSpeech_speechChunk : chunkIsSpeech speechChunk = true :=
  chunkIsSpeech_replicate 8000 1 (by norm_num)
    (by rw [RMS_THRESHOLD]; norm_num)

theorem chunkIsSpeech_silenceChunk : chunkIsSpeech silenceChunk = false :=
  chunkIsSpeech_replicate_low 8000 0
    (by rw [RMS_THRESHOLD]; norm_num)

theorem speechChunk_length : speechChunk.length = 8000 := by
  rw [speechChunk, List.length_replicate]

theorem silenceChunk_length : silenceChunk.length = 8000 := by
  rw [silenceChunk, List.length_replicate]

/-! ### Claim C1 -/

/-- Claim C1 (amended): in queue mode, for a uniform buffer period of `m`
samples, a sequence of above-threshold speech lasting 2 s (`ns * m = 32000`
samples) followed by below-threshold silence lasting 1.5 s
(`nq * m = 24000` samples) flushes exactly one segment to the transcription
queue, that segment's duration lies within one buffer period below
`2 s + SILENCE_DURATION_S = 3 s` (not 3.5 s: the flush fires as soon as the
accumulated silence reaches `SILENCE_DURATION_S = 1 s`, and the remaining
0.5 s of silence is discarded), and the segmentation state returns to the
Idle values (empty buffer, zero silence, not speaking). -/
theorem C1_segment_flush (s : AudioManager) (m ns nq : ℕ) (spc sil : List EV)
    (hstr : s.streaming_mode = false)
    (hspc : chunkIsSpeech spc = true) (hsil : chunkIsSpeech sil = false)
    (hlspc : spc.length = m) (hlsil : sil.length = m)
    (hns : ns * m = 32000) (hnq : nq * m = 24000) :
    ∃ seg : List EV,
      (runCallbacks (start_recording s)
          (List.replicate ns spc ++ List.replicate nq sil)).2 = ⟨[seg], []⟩ ∧
      3 - (m : ℚ) / 16000 ≤ (seg.length : ℚ) / 16000 ∧
      (seg.length : ℚ) / 16000 < 3 ∧
      (runCallbacks (start_recording s)
          (List.replicate ns spc ++ List.replicate nq sil)).1.audio_buffer = [] ∧
      (runCallbacks (start_recording s)
          (List.replicate ns spc ++ List.replicate nq sil)).1.current_silence_s = 0 ∧
      (runCallbacks (start_recording s)
          (List.replicate ns spc ++ List.replicate nq sil)).1.is_potentially_speaking
        = false := by
  have hm : 0 < m := by
    rcases Nat.eq_zero_or_pos m with h | h
    · rw [h] at hns; omega
    · exact h
  have hns0 : 0 < ns := by
    rcases Nat.eq_zero_or_pos ns with h | h
    · rw [h] at hns; omega
    · exact h
  have hex : ∃ j : ℕ, 16000 ≤ j * m := ⟨nq, by omega⟩
  set k := Nat.find hex with hkdef
  have hk1 : 16000 ≤ k * m := Nat.find_spec hex
  have hkpos : 0 < k := by
    rcases Nat.eq_zero_or_pos k with h | h
    · rw [h] at hk1; omega
    · exact h
  have hk2 : (k - 1) * m < 16000 := by
    have := Nat.find_min hex (m := k - 1) (by omega)
    omega
  have hknq : k ≤ nq := Nat.find_min' hex (by omega)
  have hrun := seg_run_spec s m ns nq k spc sil hstr hspc hsil hlspc hlsil
    hns0 (by omega) hk1 hk2 hknq
  refine ⟨(List.replicate ns spc ++ List.replicate (k - 1) sil).flatten, ?_, ?_, ?_, ?_, ?_, ?_⟩
  · rw [hrun]
  · have hlen : (List.replicate ns spc ++ List.replicate (k - 1) sil).flatten.length =
        ns * m + (k - 1) * m := by
      rw [List.flatten_append, List.length_append,
          flatten_length_replicate, flatten_length_replicate, hlspc, hlsil]
    rw [hlen, hns, le_div_iff₀ (by norm_num : (0:ℚ) < 16000), sub_mul,
        div_mul_cancel₀ _ (by norm_num : (16000:ℚ) ≠ 0)]
    have hk1q : (16000 : ℚ) ≤ (k : ℚ) * (m : ℚ) := by exact_mod_cast hk1
    have hkc : ((k - 1 : ℕ) : ℚ) = (k : ℚ) - 1 := by
      rw [Nat.cast_sub hkpos, Nat.cast_one]
    push_cast [hkc]
    nlinarith
  · have hlen : (List.replicate ns spc ++ List.replicate (k - 1) sil).flatten.length =
        ns * m + (k - 1) * m := by
      rw [List.flatten_append, List.length_append,
          flatten_length_replicate, flatten_length_replicate, hlspc, hlsil]
    rw [hlen, hns, div_lt_iff₀ (by norm_num : (0:ℚ) < 16000)]
    have hnat : 32000 + (k - 1) * m < 48000 := by omega
    calc ((32000 + (k - 1) * m : ℕ) : ℚ) < ((48000 : ℕ) : ℚ) := by exact_mod_cast hnat
      _ = 3 * 16000 := by norm_num
  · rw [hrun]
    rfl
  · rw [hrun]
    rfl
  · rw [hrun]
    rfl

/-- Claim C1 witness: the amended claim at a concrete instance — 0.5 s
buffers, 4 speech buffers (2 s) then 3 silent buffers (1.5 s). -/
theorem C1_segment_flush_witness :
    ∃ seg : List EV,
      (runCallbacks (start_recording initManager)
          (List.replicate 4 speechChunk ++ List.replicate 3 silenceChunk)).2 =
        ⟨[seg], []⟩ ∧
      3 - ((8000 : ℕ) : ℚ) / 16000 ≤ (seg.length : ℚ) / 16000 ∧
      (seg.length : ℚ) / 16000 < 3 ∧
      (runCallbacks (start_recording initManager)
          (List.replicate 4 speechChunk ++ List.replicate 3 silenceChunk)).1.audio_buffer
        = [] ∧
      (runCallbacks (start_recording initManager)
          (List.replicate 4 speechChunk ++
            List.replicate 3 silenceChunk)).1.current_silence_s = 0 ∧
      (runCallbacks (start_recording initManager)
          (List.replicate 4 speechChunk ++
            List.replicate 3 silenceChunk)).1.is_potentially_speaking = false :=
  C1_segment_flush initManager 8000 4 3 speechChunk silenceChunk rfl
    chunkIsSpeech_speechChunk chunkIsSpeech_silenceChunk speechChunk_length
    silenceChunk_length (by norm_num) (by norm_num)

/-- Claim C1 counterexample: for the same 2 s speech / 1.5 s silence
scenario with 0.5 s buffers, the single flushed segment holds 40000 samples
(2.5 s), which is NOT within one buffer period (0.5 s) of the claimed
3.5 s: the claim as stated is false on this input. -/
theorem C1_counterexample :
    ((runCallbacks (start_recording initManager)
        (List.replicate 4 speechChunk ++ List.replicate 3 silenceChunk)).2.queued.map
          List.length = [40000]) ∧
    ¬ (|(40000 : ℚ) / 16000 - 7 / 2| ≤ 1 / 2) := by
  constructor
  · rw [seg_run_spec initManager 8000 4 3 2 speechChunk silenceChunk rfl
      chunkIsSpeech_speechChunk chunkIsSpeech_silenceChunk speechChunk_length
      silenceChunk_length (by norm_num) (by norm_num) (by norm_num) (by norm_num)
      (by norm_num)]
    show [(List.replicate 4 speechChunk ++ List.replicate (2 - 1) silenceChunk).flatten.length]
      = [40000]
    rw [List.flatten_append, List.length_append, flatten_length_replicate,
        flatten_length_replicate, speechChunk_length, silenceChunk_length]
  · intro h
    have habs : |(40000 : ℚ) / 16000 - 7 / 2| = 1 := by
      have hval : (40000 : ℚ) / 16000 - 7 / 2 = -1 := by norm_num
      rw [hval, abs_neg, abs_one]
    rw [habs] at h
    norm_num at h

/-! ### Claim C5 -/

/-- A run of below-threshold chunks from any idle (not-potentially-speaking)
state leaves the state untouched and emits nothing. -/
theorem run_idle_all : ∀ (chunks : List (List EV)) (s : AudioManager),
    s.streaming_mode = false → s.is_potentially_speaking = false →
    (∀ c ∈ chunks, chunkIsSpeech c = false) →
    runCallbacks s chunks = (s, CallOut.empty) := by
  intro chunks
  induction chunks with
  | nil => intro s _ _ _; rfl
  | cons c cs ih =>
      intro s hstr hspk hbelow
      rw [runCallbacks_cons_eq _
            (audio_callback_idle s c hstr (hbelow c (List.mem_cons_self c cs)) hspk),
          ih s hstr hspk (fun d hd => hbelow d (List.mem_cons_of_mem c hd))]
      rfl

/-- Claim C5: in queue mode, for every sequence of audio buffers all
classified below the RMS threshold, the segmentation enqueues zero segments
and `audio_buffer` remains empty after every callback invocation (stated
for every prefix of the sequence). -/
theorem C5_below_threshold (s : AudioManager) (chunks : List (List EV))
    (hstr : s.streaming_mode = false)
    (hbelow : ∀ c ∈ chunks, chunkIsSpeech c = false) :
    ∀ l1 l2 : List (List EV), chunks = l1 ++ l2 →
      (runCallbacks (start_recording s) l1).1.audio_buffer = [] ∧
      (runCallbacks (start_recording s) l1).2 = CallOut.empty := by
  intro l1 l2 hsplit
  have hb1 : ∀ c ∈ l1, chunkIsSpeech c = false := fun c hc =>
    hbelow c (by rw [hsplit]; exact List.mem_append_left _ hc)
  rw [run_idle_all l1 (start_recording s) hstr rfl hb1]
  exact ⟨rfl, rfl⟩

/-- Claim C5 witness: a concrete all-silent two-buffer sequence. -/
theorem C5_below_threshold_witness :
    (runCallbacks (start_recording initManager) [silenceChunk]).1.audio_buffer = [] ∧
    (runCallbacks (start_recording initManager) [silenceChunk]).2 = CallOut.empty :=
  C5_below_threshold initManager [silenceChunk, silenceChunk] rfl
    (by
      intro c hc
      simp only [List.mem_cons, List.not_mem_nil, or_false] at hc
      rcases hc with rfl | rfl
      · exact chunkIsSpeech_silenceChunk
      · exact chunkIsSpeech_silenceChunk)
    [silenceChunk] [silenceChunk] rfl

/-! ### Claim C6 -/

/-- The function `flushQueued` discards a buffer whose duration is under the minimum. -/
theorem flushQueued_short (b : List (List EV))
    (h : (b.flatten.length : ℚ) / SAMPLE_RATE < MIN_CHUNK_DURATION_S) :
    flushQueued b = [] := by
  rw [flushQueued]
  by_cases hb : b = []
  · rw [if_pos hb]
  · rw [if_neg hb]
    simp only
    rw [if_neg (not_le.mpr h)]

/-- The function `flushQueued` enqueues the concatenated buffer when it is long enough. -/
theorem flushQueued_long (b : List (List EV)) (hb : b ≠ [])
    (h : MIN_CHUNK_DURATION_S ≤ (b.flatten.length : ℚ) / SAMPLE_RATE) :
    flushQueued b = [b.flatten] := by
  rw [flushQueued, if_neg hb]
  simp only
  rw [if_pos h]

/-- Unfolding of `stop_recording` while collecting: flush the buffer and reset. -/
theorem stop_recording_collecting (s : AudioManager) (hcol : s.is_collecting = true) :
    stop_recording s =
      ({ reset_collected_audio s with is_collecting := false },
       ⟨flushQueued s.audio_buffer, []⟩) := by
  rw [stop_recording, if_neg (by rw [hcol]; simp)]

/-- Claim C6: a completed segment shorter than `MIN_CHUNK_DURATION_S` is
discarded and never enqueued, and a segment at least that long is enqueued —
both on a silence-triggered flush (`audio_callback` with the silence clock
reaching the threshold) and on an explicit `stop_recording`. -/
theorem C6_min_duration (s : AudioManager) (c : List EV)
    (hcol : s.is_collecting = true) (hstr : s.streaming_mode = false)
    (hsp : chunkIsSpeech c = false) (hspk : s.is_potentially_speaking = true)
    (hge : SILENCE_DURATION_S ≤ s.current_silence_s + (c.length : ℚ) / SAMPLE_RATE) :
    (((s.audio_buffer.flatten.length : ℚ) / SAMPLE_RATE < MIN_CHUNK_DURATION_S →
        (audio_callback s c).2.queued = [] ∧ (stop_recording s).2.queued = []) ∧
     (MIN_CHUNK_DURATION_S ≤ (s.audio_buffer.flatten.length : ℚ) / SAMPLE_RATE →
        s.audio_buffer ≠ [] →
        (audio_callback s c).2.queued = [s.audio_buffer.flatten] ∧
        (stop_recording s).2.queued = [s.audio_buffer.flatten])) := by
  constructor
  · intro hshort
    rw [audio_callback_flush s c hcol hstr hsp hspk hge,
        stop_recording_collecting s hcol, flushQueued_short _ hshort]
    exact ⟨rfl, rfl⟩
  · intro hlong hne
    rw [audio_callback_flush s c hcol hstr hsp hspk hge,
        stop_recording_collecting s hcol, flushQueued_long _ hne hlong]
    exact ⟨rfl, rfl⟩

/-- Claim C6 witness: a one-sample buffer (1/16000 s, too short) is
discarded by both flush paths, and a 40000-sample buffer (2.5 s) is
enqueued by both flush paths. -/
theorem C6_min_duration_witness :
    ((audio_callback
        { initManager with is_collecting := true, audio_buffer := [[EV.fin 0]]
                           current_silence_s := 1, is_potentially_speaking := true }
        []).2.queued = [] ∧
     (stop_recording
        { initManager with is_collecting := true, audio_buffer := [[EV.fin 0]]
                           current_silence_s := 1, is_potentially_speaking := true }).2.queued
       = []) ∧
    ((audio_callback
        { initManager with is_collecting := true
                           audio_buffer := [List.replicate 40000 (EV.fin 0)]
                           current_silence_s := 1, is_potentially_speaking := true }
        []).2.queued = [[List.replicate 40000 (EV.fin 0)].flatten] ∧
     (stop_recording
        { initManager with is_collecting := true
                           audio_buffer := [List.replicate 40000 (EV.fin 0)]
                           current_silence_s := 1
                           is_potentially_speaking := true }).2.queued
       = [[List.replicate 40000 (EV.fin 0)].flatten]) := by
  constructor
  · exact (C6_min_duration _ [] rfl rfl rfl rfl
      (by rw [SILENCE_DURATION_S]; norm_num)).1
      (by
        show ((([[EV.fin 0]] : List (List EV)).flatten.length : ℚ)) / SAMPLE_RATE <
          MIN_CHUNK_DURATION_S
        rw [MIN_CHUNK_DURATION_S, SAMPLE_RATE]
        norm_num)
  · exact (C6_min_duration _ [] rfl rfl rfl rfl
      (by rw [SILENCE_DURATION_S]; norm_num)).2
      (by
        show MIN_CHUNK_DURATION_S ≤
          ((([List.replicate 40000 (EV.fin 0)] : List (List EV)).flatten.length : ℚ)) /
            SAMPLE_RATE
        rw [MIN_CHUNK_DURATION_S, SAMPLE_RATE]
        have : ([List.replicate 40000 (EV.fin 0)] : List (List EV)).flatten.length = 40000 := by
          rw [List.flatten_cons, List.flatten_nil, List.append_nil, List.length_replicate]
        rw [this]
        norm_num)
      (List.cons_ne_nil _ _)

/-! ### Claim C7 -/

/-- Claim C7 (amended): the energy computation is total (never raises in
the embedding).  A buffer containing NaN gets a NaN rms, `NaN >= threshold`
is false, so it is treated as below threshold and, while idle, discarded
with the segmentation state untouched.  A buffer containing Inf (and no
NaN), however, gets rms `+inf`, `+inf >= threshold` is TRUE, so it is
classified as speech and appended — contrary to the claim's "treated as
below threshold"; the state update is the normal speech update, so no state
corruption occurs in either case. -/
theorem C7_nan_inf (s : AudioManager) (c : List EV)
    (hcol : s.is_collecting = true) (hstr : s.streaming_mode = false) :
    (hasNan c = true → chunkIsSpeech c = false) ∧
    (hasNan c = true → s.is_potentially_speaking = false →
      audio_callback s c = (s, CallOut.empty)) ∧
    (hasNan c = false → hasInf c = true →
      chunkIsSpeech c = true ∧
      audio_callback s c =
        ({ s with audio_buffer := s.audio_buffer ++ [c]
                  current_silence_s := 0
                  is_potentially_speaking := true }, CallOut.empty)) := by
  refine ⟨?_, ?_, ?_⟩
  · intro hnan
    rw [chunkIsSpeech, if_pos hnan]
  · intro hnan hspk
    exact audio_callback_idle s c hstr (by rw [chunkIsSpeech, if_pos hnan]) hspk
  · intro hnan hinf
    have hsp : chunkIsSpeech c = true := by
      rw [chunkIsSpeech, hnan, if_neg (by simp), if_pos hinf]
    exact ⟨hsp, audio_callback_speech s c hcol hstr hsp⟩

/-- Claim C7 witness: a NaN buffer is below threshold and leaves an idle
collecting state unchanged; an Inf buffer is classified as speech and
appended. -/
theorem C7_nan_inf_witness :
    chunkIsSpeech [EV.nan] = false ∧
    audio_callback { initManager with is_collecting := true } [EV.nan] =
      ({ initManager with is_collecting := true }, CallOut.empty) ∧
    chunkIsSpeech [EV.posInf] = true := by
  refine ⟨?_, ?_, ?_⟩
  · exact (C7_nan_inf { initManager with is_collecting := true } [EV.nan] rfl rfl).1 rfl
  · exact (C7_nan_inf { initManager with is_collecting := true } [EV.nan] rfl rfl).2.1 rfl rfl
  · exact ((C7_nan_inf { initManager with is_collecting := true } [EV.posInf] rfl rfl).2.2
      rfl rfl).1

/-- Claim C7 counterexample: a buffer containing an Inf sample is NOT
treated as below threshold — it is classified as speech and appended to
`audio_buffer` even from the idle state, falsifying the claim as stated. -/
theorem C7_counterexample :
    chunkIsSpeech [EV.posInf] = true ∧
    (audio_callback { initManager with is_collecting := true } [EV.posInf]).1.audio_buffer
      = [[EV.posInf]] := by
  exact ⟨rfl, rfl⟩

/-! ### Claim C8 -/

/-- Claim C8: for every non-sentinel item, when the backend's transcribe
call raises, the exception is caught: the item contributes no text to
`results_list`, the item is still acknowledged via `task_done`, the loop
continues (second component `true`), and the whole worker run is identical
to the run in which that item produced no text. -/
theorem C8_worker_error_handling (st : WorkerState) (n : ℕ) (pre post : List WItem) :
    worker_step st (WItem.audio n TOutcome.transcribeRaises) =
      ({ st with taskDone := st.taskDone + 1 }, true) ∧
    transcription_worker st (pre ++ WItem.audio n TOutcome.transcribeRaises :: post) =
      transcription_worker st (pre ++ WItem.audio n (TOutcome.ok none) :: post) := by
  constructor
  · by_cases h : n = 0 <;> simp [worker_step, h]
  · induction pre generalizing st with
    | nil =>
        have hstep : worker_step st (WItem.audio n TOutcome.transcribeRaises) =
            worker_step st (WItem.audio n (TOutcome.ok none)) := by
          by_cases h : n = 0 <;> simp [worker_step, h]
        show (let r := worker_step st (WItem.audio n TOutcome.transcribeRaises)
              if r.2 then transcription_worker r.1 post else r.1) = _
        rw [hstep]
        rfl
    | cons i pre ih =>
        show (let r := worker_step st i
              if r.2 then transcription_worker r.1
                (pre ++ WItem.audio n TOutcome.transcribeRaises :: post) else r.1) =
          (let r := worker_step st i
           if r.2 then transcription_worker r.1
             (pre ++ WItem.audio n (TOutcome.ok none) :: post) else r.1)
        simp only
        by_cases hc : (worker_step st i).2 = true
        · rw [if_pos hc, if_pos hc, ih]
        · rw [if_neg hc, if_neg hc]

/-! ### Claim C9 -/

/-- After any `stop_recording`, the manager is no longer collecting. -/
theorem stop_recording_not_collecting (s : AudioManager) :
    (stop_recording s).1.is_collecting = false := by
  rw [stop_recording]
  by_cases h : s.is_collecting = false
  · rw [if_pos h]; exact h
  · rw [if_neg h]

/-- After any `stop_streaming`, the manager is no longer collecting. -/
theorem stop_streaming_not_collecting (s : AudioManager) :
    (stop_streaming s).1.is_collecting = false := by
  rw [stop_streaming]
  by_cases h : s.is_collecting = false
  · rw [if_pos h]; exact h
  · rw [if_neg h]
    by_cases h2 : s.streaming_mode = false
    · rw [if_pos h2]; exact stop_recording_not_collecting s
    · rw [if_neg h2]

/-- The call `stop_recording` on a non-collecting manager is a no-op. -/
theorem stop_recording_noop (s : AudioManager) (h : s.is_collecting = false) :
    stop_recording s = (s, CallOut.empty) := by
  rw [stop_recording, if_pos h]

/-- The call `stop_streaming` on a non-collecting manager is a no-op. -/
theorem stop_streaming_noop (s : AudioManager) (h : s.is_collecting = false) :
    stop_streaming s = (s, CallOut.empty) := by
  rw [stop_streaming, if_pos h]

/-- Claim C9: calling stop twice in a row is a no-op the second time, in
queue mode (`stop_recording`) and streaming mode (`stop_streaming`): the
second call leaves the state unchanged, enqueues nothing and invokes no
callback (and, being total, raises nothing). -/
theorem C9_stop_idempotent (s : AudioManager) :
    stop_recording (stop_recording s).1 = ((stop_recording s).1, CallOut.empty) ∧
    stop_streaming (stop_streaming s).1 = ((stop_streaming s).1, CallOut.empty) :=
  ⟨stop_recording_noop _ (stop_recording_not_collecting s),
   stop_streaming_noop _ (stop_streaming_not_collecting s)⟩

/-! ### Streaming step lemmas -/

theorem sum_map_length (l : List (List EV)) :
    (l.map List.length).sum = l.flatten.length := by
  induction l with
  | nil => rfl
  | cons a l ih => rw [List.map_cons, List.sum_cons, List.flatten_cons, List.length_append, ih]

theorem flatten_append_singleton (l : List (List EV)) (c : List EV) :
    (l ++ [c]).flatten = l.flatten ++ c := by
  simp

theorem flatten_remainder_box (r : List EV) :
    (if r.length ≠ 0 then [r] else ([] : List (List EV))).flatten = r := by
  by_cases h : r.length = 0
  · rw [if_neg (by simp [h])]
    rw [List.length_eq_zero] at h
    rw [h]
    rfl
  · rw [if_pos h]
    simp

/-- Unfolding of the streaming callback when the accumulated samples reach
the chunk size: exactly one chunk of exactly `chunk_size` samples is sliced
off the front, the remainder is kept, and at most one (non-final) callback
is issued. -/
theorem streaming_step_emit (s : AudioManager) (c : List EV)
    (hcol : s.is_collecting = true) (hstr : s.streaming_mode = true)
    (hge : s.streaming_chunk_size_samples ≤ s.streaming_buffer.flatten.length + c.length) :
    audio_callback s c =
      ({ s with streaming_buffer :=
            if ((s.streaming_buffer.flatten ++ c).drop
                  s.streaming_chunk_size_samples).length ≠ 0
            then [(s.streaming_buffer.flatten ++ c).drop s.streaming_chunk_size_samples]
            else [] },
       ⟨[], if s.streaming_callback = true
            then [((s.streaming_buffer.flatten ++ c).take
                    s.streaming_chunk_size_samples, false)]
            else []⟩) := by
  have htot : ((s.streaming_buffer ++ [c]).map List.length).sum =
      s.streaming_buffer.flatten.length + c.length := by
    rw [sum_map_length, flatten_append_singleton, List.length_append]
  rw [audio_callback, if_neg (by rw [hcol]; simp), if_pos hstr, streaming_audio_callback]
  simp only [htot, flatten_append_singleton, if_pos hge]

/-- Unfolding of the streaming callback while the accumulated samples stay
under the chunk size: the buffer grows and nothing is emitted. -/
theorem streaming_step_acc (s : AudioManager) (c : List EV)
    (hcol : s.is_collecting = true) (hstr : s.streaming_mode = true)
    (hlt : s.streaming_buffer.flatten.length + c.length < s.streaming_chunk_size_samples) :
    audio_callback s c =
      ({ s with streaming_buffer := s.streaming_buffer ++ [c] }, CallOut.empty) := by
  have htot : ((s.streaming_buffer ++ [c]).map List.length).sum =
      s.streaming_buffer.flatten.length + c.length := by
    rw [sum_map_length, flatten_append_singleton, List.length_append]
  rw [audio_callback, if_neg (by rw [hcol]; simp), if_pos hstr, streaming_audio_callback]
  simp only [htot, if_neg (not_le.mpr hlt)]

/-! ### Claim C10 -/

/-- Claim C10: in streaming mode, each invocation of the audio callback
dispatches at most one non-final chunk, even when the accumulated buffer
holds two or more full chunk lengths of samples; exactly `chunk_size`
samples are sliced off and the excess — possibly itself longer than one
chunk — is retained in the internal buffer. -/
theorem C10_at_most_one_chunk (s : AudioManager) (c : List EV)
    (hcol : s.is_collecting = true) (hstr : s.streaming_mode = true) :
    (audio_callback s c).2.chunks.length ≤ 1 ∧
    (s.streaming_chunk_size_samples ≤ s.streaming_buffer.flatten.length + c.length →
      (audio_callback s c).1.streaming_buffer.flatten =
        (s.streaming_buffer.flatten ++ c).drop s.streaming_chunk_size_samples ∧
      (s.streaming_callback = true →
        (audio_callback s c).2.chunks =
          [((s.streaming_buffer.flatten ++ c).take s.streaming_chunk_size_samples,
            false)])) ∧
    (s.streaming_buffer.flatten.length + c.length < s.streaming_chunk_size_samples →
      (audio_callback s c).2.chunks = [] ∧
      (audio_callback s c).1.streaming_buffer.flatten = s.streaming_buffer.flatten ++ c) := by
  refine ⟨?_, ?_, ?_⟩
  · by_cases hge : s.streaming_chunk_size_samples ≤
        s.streaming_buffer.flatten.length + c.length
    · rw [streaming_step_emit s c hcol hstr hge]
      by_cases hcb : s.streaming_callback = true
      · rw [if_pos hcb]; simp
      · rw [if_neg hcb]; simp
    · rw [streaming_step_acc s c hcol hstr (not_le.mp hge)]
      simp [CallOut.empty]
  · intro hge
    rw [streaming_step_emit s c hcol hstr hge]
    refine ⟨?_, ?_⟩
    · exact flatten_remainder_box _
    · intro hcb
      rw [if_pos hcb]
  · intro hlt
    rw [streaming_step_acc s c hcol hstr hlt]
    exact ⟨rfl, flatten_append_singleton _ _⟩

/-- Claim C10 witness: with a 2-sample chunk size and 5 samples already
buffered (more than two full chunks), one callback emits exactly one
2-sample chunk and retains the 4-sample excess. -/
theorem C10_at_most_one_chunk_witness :
    ((audio_callback
        { is_collecting := true, audio_buffer := [], current_silence_s := 0
          is_potentially_speaking := false, streaming_mode := true
          streaming_callback := true, streaming_chunk_size_samples := 2
          streaming_buffer := [List.replicate 5 (EV.fin 0)] }
        [EV.fin 0]).2.chunks.length ≤ 1) ∧
    ((audio_callback
        { is_collecting := true, audio_buffer := [], current_silence_s := 0
          is_potentially_speaking := false, streaming_mode := true
          streaming_callback := true, streaming_chunk_size_samples := 2
          streaming_buffer := [List.replicate 5 (EV.fin 0)] }
        [EV.fin 0]).1.streaming_buffer.flatten =
      (([List.replicate 5 (EV.fin 0)] : List (List EV)).flatten ++ [EV.fin 0]).drop 2) := by
  constructor
  · exact (C10_at_most_one_chunk _ [EV.fin 0] rfl rfl).1
  · exact ((C10_at_most_one_chunk _ [EV.fin 0] rfl rfl).2.1 (by decide)).1

/-! ### Claim C3 -/

/-- The audio callback itself never delivers an `is_final=True` chunk, in
either mode. -/
theorem audio_callback_no_final (s : AudioManager) (c : List EV) :
    ∀ p ∈ (audio_callback s c).2.chunks, p.2 = false := by
  intro p hp
  by_cases h1 : s.is_collecting = false
  · rw [audio_callback, if_pos h1] at hp
    exact absurd hp (List.not_mem_nil p)
  · by_cases h2 : s.streaming_mode
    · rw [audio_callback, if_neg h1, if_pos h2, streaming_audio_callback] at hp
      simp only at hp
      by_cases h3 : s.streaming_chunk_size_samples ≤
          ((s.streaming_buffer ++ [c]).map List.length).sum
      · rw [if_pos h3] at hp
        by_cases h4 : s.streaming_callback = true
        · rw [if_pos h4] at hp
          simp only [List.mem_singleton] at hp
          rw [hp]
        · rw [if_neg h4] at hp
          exact absurd hp (List.not_mem_nil p)
      · rw [if_neg h3] at hp
        exact absurd hp (List.not_mem_nil p)
    · rw [audio_callback, if_neg h1, if_neg h2] at hp
      simp only at hp
      by_cases h5 : chunkIsSpeech c = true
      · rw [if_pos h5] at hp
        exact absurd hp (List.not_mem_nil p)
      · rw [if_neg h5] at hp
        by_cases h6 : s.is_potentially_speaking = true
        · rw [if_pos h6] at hp
          by_cases h7 : SILENCE_DURATION_S ≤
              s.current_silence_s + (c.length : ℚ) / SAMPLE_RATE
          · rw [if_pos h7] at hp
            exact absurd hp (List.not_mem_nil p)
          · rw [if_neg h7] at hp
            exact absurd hp (List.not_mem_nil p)
        · rw [if_neg h6] at hp
          exact absurd hp (List.not_mem_nil p)

/-- The call `stop_streaming` in streaming mode with a registered callback and a
nonempty residual buffer delivers exactly the residual, final. -/
theorem stop_streaming_final (s : AudioManager)
    (hcol : s.is_collecting = true) (hstr : s.streaming_mode = true)
    (hcb : s.streaming_callback = true)
    (hpos : 0 < (s.streaming_buffer.map List.length).sum) :
    (stop_streaming s).2.chunks = [(s.streaming_buffer.flatten, true)] := by
  have hne : s.streaming_buffer ≠ [] := by
    intro h
    rw [h] at hpos
    simp at hpos
  rw [stop_streaming, if_neg (by rw [hcol]; simp), if_neg (by rw [hstr]; simp)]
  simp only
  rw [if_pos ⟨hne, hcb⟩, if_pos hpos]

/-- The chunks delivered by `stop_streaming`: never more than one, and all
final. -/
theorem stop_streaming_chunks_le_one (s : AudioManager) :
    (stop_streaming s).2.chunks.length ≤ 1 ∧
    ∀ p ∈ (stop_streaming s).2.chunks, p.2 = true := by
  by_cases h1 : s.is_collecting = false
  · rw [stop_streaming_noop s h1]
    exact ⟨by simp [CallOut.empty], by intro p hp; exact absurd hp (List.not_mem_nil p)⟩
  · by_cases h2 : s.streaming_mode = false
    · rw [stop_streaming, if_neg h1, if_pos h2, stop_recording,
          if_neg h1]
      exact ⟨by simp, by intro p hp; exact absurd hp (List.not_mem_nil p)⟩
    · rw [stop_streaming, if_neg h1, if_neg h2]
      simp only
      by_cases h3 : s.streaming_buffer ≠ [] ∧ s.streaming_callback = true
      · rw [if_pos h3]
        by_cases h4 : 0 < (s.streaming_buffer.map List.length).sum
        · rw [if_pos h4]
          exact ⟨by simp, by
            intro p hp
            simp only [List.mem_singleton] at hp
            rw [hp]⟩
        · rw [if_neg h4]
          exact ⟨by simp, by intro p hp; exact absurd hp (List.not_mem_nil p)⟩
      · rw [if_neg h3]
        exact ⟨by simp, by intro p hp; exact absurd hp (List.not_mem_nil p)⟩

/-- The call `stop_streaming` on a state whose residual buffer holds zero
samples delivers no chunk at all, in every branch. -/
theorem stop_streaming_empty_residual (s : AudioManager)
    (h : (s.streaming_buffer.map List.length).sum = 0) :
    (stop_streaming s).2.chunks = [] := by
  by_cases h1 : s.is_collecting = false
  · rw [stop_streaming_noop s h1]
    rfl
  · by_cases h2 : s.streaming_mode = false
    · rw [stop_streaming, if_neg h1, if_pos h2, stop_recording, if_neg h1]
    · rw [stop_streaming, if_neg h1, if_neg h2]
      simp only
      by_cases h3 : s.streaming_buffer ≠ [] ∧ s.streaming_callback = true
      · rw [if_pos h3, if_neg (by omega : ¬ 0 < (s.streaming_buffer.map List.length).sum)]
      · rw [if_neg h3]

/-- Streaming session run: starting from a state whose residual buffer
holds fewer than `chunk_size` samples, feeding device buffers of at most
`chunk_size` samples each emits, in order, one non-final chunk per full
`chunk_size` block of the accumulated sample stream, and retains exactly
the remainder (`total mod chunk_size` samples); only `streaming_buffer`
changes. -/
theorem streaming_run_spec (cs : ℕ) (hcs : 0 < cs) :
    ∀ (chunks : List (List EV)) (s : AudioManager) (R : List EV),
      s.is_collecting = true → s.streaming_mode = true → s.streaming_callback = true →
      s.streaming_chunk_size_samples = cs →
      s.streaming_buffer.flatten = R → R.length < cs →
      (∀ c ∈ chunks, c.length ≤ cs) →
      ∃ B : List (List EV),
        runCallbacks s chunks =
          ({ s with streaming_buffer := B },
           ⟨[], (sliceFulls cs ((R ++ chunks.flatten).length / cs)
                  (R ++ chunks.flatten)).map (fun b => (b, false))⟩) ∧
        B.flatten = (R ++ chunks.flatten).drop
          (((R ++ chunks.flatten).length / cs) * cs) := by
  intro chunks
  induction chunks with
  | nil =>
      intro s R hcol hstr hcb hsz hflat hRlt _
      refine ⟨s.streaming_buffer, ?_, ?_⟩
      · rw [runCallbacks_nil, List.flatten_nil, List.append_nil,
            Nat.div_eq_of_lt hRlt]
        rfl
      · rw [List.flatten_nil, List.append_nil, Nat.div_eq_of_lt hRlt,
            Nat.zero_mul, List.drop_zero]
        exact hflat
  | cons c rest ih =>
      intro s R hcol hstr hcb hsz hflat hRlt hsize
      subst hsz
      have hc_le : c.length ≤ s.streaming_chunk_size_samples :=
        hsize c (List.mem_cons_self c rest)
      have hrest : ∀ d ∈ rest, d.length ≤ s.streaming_chunk_size_samples :=
        fun d hd => hsize d (List.mem_cons_of_mem c hd)
      have hA : R ++ (c :: rest).flatten = (R ++ c) ++ rest.flatten := by
        rw [List.flatten_cons, List.append_assoc]
      by_cases hcase : s.streaming_chunk_size_samples ≤ R.length + c.length
      · -- this buffer completes a chunk: one non-final emission
        have hstep := streaming_step_emit s c hcol hstr (by rw [hflat]; exact hcase)
        rw [hflat] at hstep
        rw [if_pos hcb] at hstep
        have hs1flat :
            (if ((R ++ c).drop s.streaming_chunk_size_samples).length ≠ 0
             then [(R ++ c).drop s.streaming_chunk_size_samples]
             else ([] : List (List EV))).flatten =
              (R ++ c).drop s.streaming_chunk_size_samples :=
          flatten_remainder_box _
        have hs1len : ((R ++ c).drop s.streaming_chunk_size_samples).length <
            s.streaming_chunk_size_samples := by
          rw [List.length_drop, List.length_append]
          omega
        obtain ⟨B, hrun, hBflat⟩ := ih
          { s with streaming_buffer :=
              if ((R ++ c).drop s.streaming_chunk_size_samples).length ≠ 0
              then [(R ++ c).drop s.streaming_chunk_size_samples] else [] }
          ((R ++ c).drop s.streaming_chunk_size_samples)
          hcol hstr hcb rfl hs1flat hs1len hrest
        have hdrop : ((R ++ c) ++ rest.flatten).drop s.streaming_chunk_size_samples =
            (R ++ c).drop s.streaming_chunk_size_samples ++ rest.flatten :=
          List.drop_append_of_le_length (by rw [List.length_append]; omega)
        have htake : ((R ++ c) ++ rest.flatten).take s.streaming_chunk_size_samples =
            (R ++ c).take s.streaming_chunk_size_samples :=
          List.take_append_of_le_length (by rw [List.length_append]; omega)
        have hdivA : ((R ++ c) ++ rest.flatten).length / s.streaming_chunk_size_samples =
            ((R ++ c).drop s.streaming_chunk_size_samples ++ rest.flatten).length /
              s.streaming_chunk_size_samples + 1 := by
          have hlenA : ((R ++ c) ++ rest.flatten).length =
              ((R ++ c).drop s.streaming_chunk_size_samples ++ rest.flatten).length +
                s.streaming_chunk_size_samples := by
            simp only [List.length_append, List.length_drop]
            omega
          rw [hlenA, Nat.add_div_right _ hcs]
        refine ⟨B, ?_, ?_⟩
        · rw [runCallbacks_cons_of_step hstep hrun, hA, hdivA, sliceFulls, htake,
              hdrop, List.map_cons]
          rfl
        · rw [hBflat, hA, hdivA]
          have heq : ((R ++ c) ++ rest.flatten).drop
              ((((R ++ c).drop s.streaming_chunk_size_samples ++ rest.flatten).length /
                  s.streaming_chunk_size_samples + 1) * s.streaming_chunk_size_samples) =
              (((R ++ c) ++ rest.flatten).drop s.streaming_chunk_size_samples).drop
                ((((R ++ c).drop s.streaming_chunk_size_samples ++ rest.flatten).length /
                    s.streaming_chunk_size_samples) * s.streaming_chunk_size_samples) := by
            rw [List.drop_drop]
            congr 1
            ring
          rw [heq, hdrop]
      · -- still accumulating: nothing emitted
        have hstep := streaming_step_acc s c hcol hstr (by rw [hflat]; omega)
        have hs1flat : (s.streaming_buffer ++ [c]).flatten = R ++ c := by
          rw [flatten_append_singleton, hflat]
        have hs1len : (R ++ c).length < s.streaming_chunk_size_samples := by
          rw [List.length_append]; omega
        obtain ⟨B, hrun, hBflat⟩ := ih
          { s with streaming_buffer := s.streaming_buffer ++ [c] }
          (R ++ c) hcol hstr hcb rfl hs1flat hs1len hrest
        refine ⟨B, ?_, ?_⟩
        · rw [runCallbacks_cons_of_step hstep hrun, hA]
          rw [CallOut.empty_append]
        · rw [hBflat, hA]

/-- The `n` full slices of a list long enough all have exactly `cs`
samples and are all marked non-final. -/
theorem sliceFulls_len_pairs (cs : ℕ) :
    ∀ (n : ℕ) (A : List EV), n * cs ≤ A.length →
      ((sliceFulls cs n A).map (fun b => (b, false))).map
          (fun p : List EV × Bool => (p.1.length, p.2)) =
        List.replicate n (cs, false) := by
  intro n
  induction n with
  | zero => intro A _; rfl
  | succ n ih =>
      intro A hlen
      rw [sliceFulls, List.map_cons, List.map_cons, List.replicate_succ]
      have htake : (A.take cs).length = cs := by
        rw [List.length_take]
        have : (n + 1) * cs = n * cs + cs := by ring
        omega
      have hdroplen : n * cs ≤ (A.drop cs).length := by
        rw [List.length_drop]
        have : (n + 1) * cs = n * cs + cs := by ring
        omega
      rw [ih (A.drop cs) hdroplen]
      simp only [htake]

/-! ### Claim C4 -/

/-- Claim C4 (amended): in streaming mode, when every device buffer holds
at most `chunk_duration_samples` samples (as real device periods do — a
single oversized buffer would be split one chunk per callback, cf. C10),
feeding exactly `chunk_duration_samples * 3 + 500` samples with
`500 < chunk_duration_samples` and then calling `stop_streaming` yields
exactly 3 `is_final=False` deliveries of exactly `chunk_duration_samples`
samples each, followed by exactly 1 `is_final=True` delivery carrying the
500-sample remainder (unpadded, exactly the trailing 500 samples fed). -/
theorem C4_chunk_boundaries (s : AudioManager) (ms cs : ℕ) (chunks : List (List EV))
    (hcol : s.is_collecting = false)
    (hms : 16000 * ms / 1000 = cs)
    (h500 : 500 < cs)
    (hsz : ∀ c ∈ chunks, c.length ≤ cs)
    (htot : chunks.flatten.length = 3 * cs + 500) :
    (runCallbacks (start_streaming s ms true) chunks).2.queued = [] ∧
    (runCallbacks (start_streaming s ms true) chunks).2.chunks.map
        (fun p : List EV × Bool => (p.1.length, p.2)) =
      [(cs, false), (cs, false), (cs, false)] ∧
    (stop_streaming (runCallbacks (start_streaming s ms true) chunks).1).2.chunks =
      [(chunks.flatten.drop (3 * cs), true)] ∧
    (chunks.flatten.drop (3 * cs)).length = 500 := by
  have hcs : 0 < cs := by omega
  have hs0 : start_streaming s ms true =
      { s with streaming_mode := true
               streaming_callback := true
               streaming_chunk_size_samples := cs
               streaming_buffer := []
               audio_buffer := []
               current_silence_s := 0
               is_potentially_speaking := false
               is_collecting := true } := by
    rw [start_streaming, if_neg (by rw [hcol]; simp), hms]
  obtain ⟨B, hrun, hBflat⟩ := streaming_run_spec cs hcs chunks
    { s with streaming_mode := true
             streaming_callback := true
             streaming_chunk_size_samples := cs
             streaming_buffer := []
             audio_buffer := []
             current_silence_s := 0
             is_potentially_speaking := false
             is_collecting := true }
    [] rfl rfl rfl rfl rfl hcs hsz
  have h3 : chunks.flatten.length / cs = 3 := by
    rw [htot, Nat.mul_comm 3 cs, Nat.mul_add_div hcs, Nat.div_eq_of_lt h500]
  simp only [List.nil_append] at hrun hBflat
  rw [h3] at hrun hBflat
  have hlen500 : (chunks.flatten.drop (3 * cs)).length = 500 := by
    rw [List.length_drop, htot]
    omega
  refine ⟨?_, ?_, ?_, hlen500⟩
  · rw [hs0, hrun]
  · rw [hs0, hrun]
    exact sliceFulls_len_pairs cs 3 chunks.flatten (by omega)
  · rw [hs0, hrun]
    have hfinal := stop_streaming_final
      { s with streaming_mode := true
               streaming_callback := true
               streaming_chunk_size_samples := cs
               streaming_buffer := B
               audio_buffer := []
               current_silence_s := 0
               is_potentially_speaking := false
               is_collecting := true }
      rfl rfl rfl
      (by
        show 0 < (B.map List.length).sum
        rw [sum_map_length, hBflat, hlen500]
        omega)
    rw [hfinal]
    rw [hBflat]

/-- Claim C4 witness: chunk size 80 ms (1280 samples), four 1085-sample
device buffers (4340 = 3 x 1280 + 500 samples total). -/
theorem C4_chunk_boundaries_witness :
    (runCallbacks (start_streaming initManager 80 true)
        (List.replicate 4 (List.replicate 1085 (EV.fin 0)))).2.queued = [] ∧
    (runCallbacks (start_streaming initManager 80 true)
        (List.replicate 4 (List.replicate 1085 (EV.fin 0)))).2.chunks.map
        (fun p : List EV × Bool => (p.1.length, p.2)) =
      [(1280, false), (1280, false), (1280, false)] ∧
    (stop_streaming (runCallbacks (start_streaming initManager 80 true)
        (List.replicate 4 (List.replicate 1085 (EV.fin 0)))).1).2.chunks =
      [((List.replicate 4 (List.replicate 1085 (EV.fin 0))).flatten.drop (3 * 1280),
        true)] ∧
    ((List.replicate 4 (List.replicate 1085 (EV.fin 0))).flatten.drop (3 * 1280)).length
      = 500 :=
  C4_chunk_boundaries initManager 80 1280
    (List.replicate 4 (List.replicate 1085 (EV.fin 0))) rfl (by decide) (by decide)
    (by
      intro c hc
      rw [List.eq_of_mem_replicate hc, List.length_replicate]
      decide)
    (by rw [flatten_length_replicate, List.length_replicate])

/-- Feeding one single over-long device buffer (more than one chunk length)
to a fresh streaming session emits exactly ONE non-final chunk of
`chunk_size` samples, and stop then delivers the whole oversized remainder
(`length - chunk_size` samples) as the final chunk. -/
theorem single_buffer_run (s : AudioManager) (ms cs : ℕ) (c : List EV)
    (hcol : s.is_collecting = false) (hms : 16000 * ms / 1000 = cs)
    (hrem : cs < c.length) :
    ((runCallbacks (start_streaming s ms true) [c]).2.chunks.map
        (fun p : List EV × Bool => (p.1.length, p.2)) = [(cs, false)]) ∧
    ((stop_streaming (runCallbacks (start_streaming s ms true) [c]).1).2.chunks.map
        (fun p : List EV × Bool => (p.1.length, p.2)) = [(c.length - cs, true)]) := by
  have hs0 : start_streaming s ms true =
      { s with streaming_mode := true
               streaming_callback := true
               streaming_chunk_size_samples := cs
               streaming_buffer := []
               audio_buffer := []
               current_silence_s := 0
               is_potentially_speaking := false
               is_collecting := true } := by
    rw [start_streaming, if_neg (by rw [hcol]; simp), hms]
  have hstep := streaming_step_emit
    { s with streaming_mode := true
             streaming_callback := true
             streaming_chunk_size_samples := cs
             streaming_buffer := []
             audio_buffer := []
             current_silence_s := 0
             is_potentially_speaking := false
             is_collecting := true }
    c rfl rfl
    (by
      show cs ≤ ([] : List (List EV)).flatten.length + c.length
      rw [List.flatten_nil, List.length_nil, Nat.zero_add]
      omega)
  dsimp only [] at hstep
  rw [if_pos rfl] at hstep
  have hnil : (([] : List (List EV)).flatten ++ c) = c := by
    rw [List.flatten_nil, List.nil_append]
  rw [hnil] at hstep
  rw [if_pos (by rw [List.length_drop]; omega : ¬((c.drop cs).length = 0))] at hstep
  have hrun := runCallbacks_cons_of_step hstep (runCallbacks_nil _)
  rw [CallOut.append_empty] at hrun
  constructor
  · rw [hs0, hrun]
    show [((c.take cs).length, false)] = [(cs, false)]
    rw [List.length_take]
    congr 2
    omega
  · rw [hs0, hrun]
    have hfinal := stop_streaming_final
      { s with streaming_mode := true
               streaming_callback := true
               streaming_chunk_size_samples := cs
               streaming_buffer := [c.drop cs]
               audio_buffer := []
               current_silence_s := 0
               is_potentially_speaking := false
               is_collecting := true }
      rfl rfl rfl
      (by
        show 0 < (([c.drop cs] : List (List EV)).map List.length).sum
        rw [sum_map_length, List.flatten_cons, List.flatten_nil, List.append_nil,
            List.length_drop]
        omega)
    rw [hfinal]
    show [((([c.drop cs] : List (List EV)).flatten).length, true)] = [(c.length - cs, true)]
    rw [List.flatten_cons, List.flatten_nil, List.append_nil, List.length_drop]

/-- Claim C4 counterexample: feeding the same `3 * 1280 + 500 = 4340`
samples as ONE oversized buffer yields only 1 non-final chunk before stop
(the excess stays buffered, cf. C10), and the final chunk then carries 3060
samples, not the 500-sample remainder: the claim as stated (with no bound
on the device buffer size) is false. -/
theorem C4_counterexample :
    ((runCallbacks (start_streaming initManager 80 true)
        [List.replicate 4340 (EV.fin 0)]).2.chunks.map
        (fun p : List EV × Bool => (p.1.length, p.2)) = [(1280, false)]) ∧
    ((stop_streaming (runCallbacks (start_streaming initManager 80 true)
        [List.replicate 4340 (EV.fin 0)]).1).2.chunks.map
        (fun p : List EV × Bool => (p.1.length, p.2)) = [(3060, true)]) := by
  have h := single_buffer_run initManager 80 1280 (List.replicate 4340 (EV.fin 0))
    rfl (by norm_num) (by rw [List.length_replicate]; omega)
  rw [List.length_replicate] at h
  norm_num at h
  exact h

/-! ### Claim C2 -/

/-- Claim C2 (amended): when a hot swap fails because the new backend cannot
be created or loaded, `hot_swap_model` returns `false` and restores
`state.model_type` — but the swap is NOT fully rolled back: the old model
was already unloaded before the load attempt, so `state.stt_model` is `None`
after a failed instance creation (or holds the new, unloaded instance after
a failed weight load), and `state.model_loaded` is `False`; the previously
loaded model object does not remain usable. -/
theorem C2_failed_swap (resolve : String → Option String)
    (env : String → LoadOutcome) (s : AppGlobalState) (aliasName full : String)
    (hres : resolve aliasName = some full)
    (hfail : env full ≠ LoadOutcome.ok) :
    (hot_swap_model resolve env s aliasName).2 = false ∧
    (hot_swap_model resolve env s aliasName).1.model_type = s.model_type ∧
    (hot_swap_model resolve env s aliasName).1.model_loaded = false ∧
    (hot_swap_model resolve env s aliasName).1.stt_model =
      (match env full with
       | LoadOutcome.loadRaises => some full
       | _ => none) := by
  rw [hot_swap_model, hres]
  cases henv : env full with
  | createRaises => simp [get_model, henv]
  | loadRaises => simp [get_model, henv]
  | ok => exact absurd henv hfail

/-- Claim C2 witness: with a loaded model "A", an attempted swap to "B"
whose instance creation raises returns `false`, restores `model_type` to
"A", and leaves `stt_model = None` and `model_loaded = False`. -/
theorem C2_failed_swap_witness :
    (hot_swap_model (fun a => if a = "b" then some "B" else none)
        (fun _ => LoadOutcome.createRaises)
        { model_type := "A", stt_model := some "A", model_loaded := true } "b").2
      = false ∧
    (hot_swap_model (fun a => if a = "b" then some "B" else none)
        (fun _ => LoadOutcome.createRaises)
        { model_type := "A", stt_model := some "A", model_loaded := true } "b").1.model_type
      = "A" ∧
    (hot_swap_model (fun a => if a = "b" then some "B" else none)
        (fun _ => LoadOutcome.createRaises)
        { model_type := "A", stt_model := some "A", model_loaded := true } "b").1.model_loaded
      = false ∧
    (hot_swap_model (fun a => if a = "b" then some "B" else none)
        (fun _ => LoadOutcome.createRaises)
        { model_type := "A", stt_model := some "A", model_loaded := true } "b").1.stt_model
      = (match (fun (_ : String) => LoadOutcome.createRaises) "B" with
         | LoadOutcome.loadRaises => some "B"
         | _ => none) :=
  C2_failed_swap (fun a => if a = "b" then some "B" else none)
    (fun _ => LoadOutcome.createRaises)
    { model_type := "A", stt_model := some "A", model_loaded := true } "b" "B"
    (by simp) (by simp)

/-- Claim C2 counterexample: after the failed swap above, `stt_model` is
`None` — the previously loaded model "A" is no longer referenced and the
resulting state differs from the state before the swap: the claim as
stated (previous model remains usable, state fully rolled back) is false. -/
theorem C2_counterexample :
    (hot_swap_model (fun a => if a = "b" then some "B" else none)
        (fun _ => LoadOutcome.createRaises)
        { model_type := "A", stt_model := some "A", model_loaded := true } "b").1.stt_model
      = none ∧
    (hot_swap_model (fun a => if a = "b" then some "B" else none)
        (fun _ => LoadOutcome.createRaises)
        { model_type := "A", stt_model := some "A", model_loaded := true } "b").1
      ≠ { model_type := "A", stt_model := some "A", model_loaded := true } := by
  constructor
  · rfl
  · intro h
    have := congrArg AppGlobalState.stt_model h
    simp [hot_swap_model, get_model] at this

/-! ### Claim C3 -/

/-- Claim C3 (amended): per streaming session, the callback delivers no
final chunks during the run; `stop_streaming` delivers at most one chunk
and it is final — exactly one precisely when the residual buffer at stop is
nonempty (with a callback registered), and ZERO when the residual holds no
samples; in particular a whole session (start, feed device buffers of at
most one chunk length, stop) whose total fed length is an exact multiple of
the chunk length — or zero — gets no `is_final=True` delivery at all; after
`stop_streaming` the manager is not collecting, and a non-collecting
manager's callback delivers nothing and changes nothing. -/
theorem C3_final_delivery (s : AudioManager) (c : List EV) :
    (∀ p ∈ (audio_callback s c).2.chunks, p.2 = false) ∧
    ((stop_streaming s).2.chunks.length ≤ 1) ∧
    (∀ p ∈ (stop_streaming s).2.chunks, p.2 = true) ∧
    ((stop_streaming s).1.is_collecting = false) ∧
    (s.is_collecting = true → s.streaming_mode = true → s.streaming_callback = true →
      0 < (s.streaming_buffer.map List.length).sum →
      (stop_streaming s).2.chunks = [(s.streaming_buffer.flatten, true)]) ∧
    ((s.streaming_buffer.map List.length).sum = 0 →
      (stop_streaming s).2.chunks = []) ∧
    (∀ (ms cs : ℕ) (chunks : List (List EV)),
      s.is_collecting = false →
      16000 * ms / 1000 = cs → 0 < cs →
      (∀ d ∈ chunks, d.length ≤ cs) →
      chunks.flatten.length % cs = 0 →
      (stop_streaming (runCallbacks (start_streaming s ms true) chunks).1).2.chunks
        = []) ∧
    (s.is_collecting = false → audio_callback s c = (s, CallOut.empty)) := by
  refine ⟨audio_callback_no_final s c,
    (stop_streaming_chunks_le_one s).1,
    (stop_streaming_chunks_le_one s).2,
    stop_streaming_not_collecting s,
    fun hcol hstr hcb hpos => stop_streaming_final s hcol hstr hcb hpos,
    fun hzero => stop_streaming_empty_residual s hzero,
    ?_,
    fun hncol => by rw [audio_callback, if_pos hncol]⟩
  intro ms cs chunks hcol hms hcs hsz hmod
  have hs0 : start_streaming s ms true =
      { s with streaming_mode := true
               streaming_callback := true
               streaming_chunk_size_samples := cs
               streaming_buffer := []
               audio_buffer := []
               current_silence_s := 0
               is_potentially_speaking := false
               is_collecting := true } := by
    rw [start_streaming, if_neg (by rw [hcol]; simp), hms]
  obtain ⟨B, hrun, hBflat⟩ := streaming_run_spec cs hcs chunks
    { s with streaming_mode := true
             streaming_callback := true
             streaming_chunk_size_samples := cs
             streaming_buffer := []
             audio_buffer := []
             current_silence_s := 0
             is_potentially_speaking := false
             is_collecting := true }
    [] rfl rfl rfl rfl rfl hcs hsz
  simp only [List.nil_append] at hrun hBflat
  have hdropall : chunks.flatten.drop (chunks.flatten.length / cs * cs) = [] := by
    apply List.drop_eq_nil_of_le
    rw [Nat.div_mul_cancel (Nat.dvd_of_mod_eq_zero hmod)]
  have hBempty : B.flatten = [] := by rw [hBflat, hdropall]
  rw [hs0, hrun]
  apply stop_streaming_empty_residual
  show (B.map List.length).sum = 0
  rw [sum_map_length, hBempty]
  rfl

/-- Claim C3 witness: a streaming state with a one-sample residual buffer
delivers exactly one final chunk at stop; a whole session feeding exactly
one chunk length of audio (an exact multiple) delivers zero final chunks at
stop; a non-collecting manager's callback is a no-op. -/
theorem C3_final_delivery_witness :
    (stop_streaming
        { is_collecting := true, audio_buffer := [], current_silence_s := 0
          is_potentially_speaking := false, streaming_mode := true
          streaming_callback := true, streaming_chunk_size_samples := 8960
          streaming_buffer := [[EV.fin 0]] }).2.chunks =
      [(([[EV.fin 0]] : List (List EV)).flatten, true)] ∧
    (stop_streaming (runCallbacks (start_streaming initManager 80 true)
        [List.replicate 1280 (EV.fin 0)]).1).2.chunks = [] ∧
    audio_callback initManager [EV.fin 0] = (initManager, CallOut.empty) :=
  ⟨(C3_final_delivery
      { is_collecting := true, audio_buffer := [], current_silence_s := 0
        is_potentially_speaking := false, streaming_mode := true
        streaming_callback := true, streaming_chunk_size_samples := 8960
        streaming_buffer := [[EV.fin 0]] } []).2.2.2.2.1 rfl rfl rfl (by decide),
   (C3_final_delivery initManager []).2.2.2.2.2.2.1 80 1280
      [List.replicate 1280 (EV.fin 0)] rfl (by norm_num) (by norm_num)
      (by
        intro d hd
        rw [List.mem_singleton] at hd
        rw [hd, List.length_replicate])
      (by
        rw [List.flatten_cons, List.flatten_nil, List.append_nil,
            List.length_replicate]),
   (C3_final_delivery initManager [EV.fin 0]).2.2.2.2.2.2.2 rfl⟩

/-- Claim C3 counterexample: a session that feeds no audio at all (total
length zero — a case the claim explicitly includes) delivers ZERO
`is_final=True` chunks at stop, not exactly one: the claim as stated is
false. -/
theorem C3_counterexample :
    (stop_streaming (start_streaming initManager 560 true)).2.chunks = [] ∧
    ¬ ((stop_streaming (start_streaming initManager 560 true)).2.chunks.length = 1) := by
  constructor
  · rfl
  · decide
